import Mathlib

/-!
# Verification of the Wordle-Helper core (`src/wordle.py`)

A shallow embedding of the knowledge-accumulation and candidate-suggestion
engine of the repository.  Words are lists of characters; the Python `set`
of grey letters is modelled as a `List Char` whose membership coincides with
set membership; the per-letter excluded-position dictionary
(`_yellow_letter_positions`, keyed by the 26 lowercase letters) is modelled
as a total function `Char → List Bool`; Python functions that can raise are
modelled with `Option` (`none` = exception).
-/

namespace WordleHelper

abbrev Word := List Char

/-- The 26 keys of the `_yellow_letter_positions` dictionary
(`string.ascii_lowercase`). -/
def asciiLowercase : List Char := "abcdefghijklmnopqrstuvwxyz".toList

/-- `all_letters_in_word` (wordle.py:46): every letter of `letters` occurs in
`word`. -/
def all_letters_in_word (word : Word) (letters : List Char) : Bool :=
  letters.all (fun l => word.contains l)

/-- Loop body of `all_letters_in_word_positional` (wordle.py:51): walk the
pairs produced by `zip(letters, word, strict=True)`.  A `?` in the match
pattern is a wildcard; a disagreement returns `False`; exhausting one
sequence before the other raises `ValueError` (modelled by `none`), but the
lazy `zip` only detects the length mismatch when it is reached, so an early
disagreement still returns `False`. -/
def positionalMatch : List Char → List Char → Option Bool
  | [], [] => some true
  | [], _ :: _ => none
  | _ :: _, [] => none
  | m :: ms, w :: ws =>
    if m = '?' then positionalMatch ms ws
    else if m = w then positionalMatch ms ws
    else some false

/-- `all_letters_in_word_positional` (wordle.py:51): positional prototype
match with `?` wildcards over `zip(letters, word, strict=True)`. -/
def all_letters_in_word_positional (word : Word) (letters : List Char) : Option Bool :=
  positionalMatch letters word

/-- `does_not_contain` (wordle.py:68).  When `knownCorrectPositions` is
truthy (present and non-empty), only the positions whose marker is `?` are
kept (Python's `zip` truncates to the shorter sequence); the word passes iff
none of `lettersNotInWord` occurs among the kept letters. -/
def does_not_contain (word : Word) (lettersNotInWord : List Char)
    (knownCorrectPositions : Option (List Char)) : Bool :=
  let w : List Char :=
    match knownCorrectPositions with
    | some kcp =>
      if kcp.isEmpty then word
      else (word.zip kcp).filterMap (fun p => if p.2 = '?' then some p.1 else none)
    | none => word
  !(lettersNotInWord.any (fun l => w.contains l))

/-- `_filter_with_yellow_letters` (wordle.py:118): for every entry
`(yellow_letter, positions)` of the dictionary, the word must not carry
`yellow_letter` at a flagged position, and must contain `yellow_letter`
somewhere. -/
def filter_with_yellow_letters (word : Word)
    (yellow_letter_positions : List (Char × List Bool)) : Bool :=
  yellow_letter_positions.all (fun p =>
    !(word.enum.any (fun ic => ic.2 = p.1 && p.2.getD ic.1 false))
      && word.contains p.1)

/-! ## The `Wordle` knowledge state (wordle.py:328) -/

structure Wordle where
  lettersNotInWord : List Char
  yellowLetterPositions : Char → List Bool
  greenLetterPositions : List Char

/-- `Wordle.__init__` (wordle.py:343): no grey letters, every letter mapped
to five `False` flags, all five positions unknown. -/
def Wordle.init : Wordle :=
  ⟨[], fun _ => List.replicate 5 false, List.replicate 5 '?'⟩

/-- `Wordle._yellow_letter_positions_to_set` (wordle.py:367): the letters
whose flag list holds at least one `True`.  The Python dictionary is keyed
by exactly the 26 lowercase letters, so the iteration ranges over
`asciiLowercase`. -/
def yellow_letter_positions_to_set (y : Char → List Bool) : List Char :=
  asciiLowercase.filter (fun c => (y c).any id)

/-- Loop of `Wordle._process_input` (wordle.py:403): for each
`(letter, mark)` pair, `X` adds the letter to the grey set, `Y` writes it
into the yellow prototype, `G` into the green prototype; writing past the
end of the five-slot prototype raises `IndexError` (modelled by `none`). -/
def processInputAux :
    Nat → List (Char × Char) → List Char × List Char × List Char →
    Option (List Char × List Char × List Char)
  | _, [], st => some st
  | idx, (letter, info) :: rest, (nots, yel, grn) =>
    let infoU := info.toUpper
    if infoU = 'X' then processInputAux (idx + 1) rest (nots.insert letter, yel, grn)
    else if infoU = 'Y' then
      if idx < yel.length then
        processInputAux (idx + 1) rest (nots, yel.set idx letter, grn)
      else none
    else if infoU = 'G' then
      if idx < grn.length then
        processInputAux (idx + 1) rest (nots, yel, grn.set idx letter)
      else none
    else processInputAux (idx + 1) rest (nots, yel, grn)

/-- `Wordle._process_input` (wordle.py:385): fold the zipped
`(word_played, information)` pairs into (grey letters, yellow prototype,
green prototype), starting from an empty set and two all-`?` prototypes. -/
def process_input (word_played information : List Char) :
    Option (List Char × List Char × List Char) :=
  processInputAux 0 (word_played.zip information)
    ([], List.replicate 5 '?', List.replicate 5 '?')

/-- One dictionary write `y[c][idx] = b`. -/
def setYellow (y : Char → List Bool) (c : Char) (idx : Nat) (b : Bool) :
    Char → List Bool :=
  fun d => if d = c then (y c).set idx b else y d

/-- The two identical loops of `Wordle._update_word_information`
(wordle.py:432 and wordle.py:442): for every non-`?` entry of a prototype,
set that letter's flag at that index to `True`. -/
def markPositions : (Char → List Bool) → Nat → List Char → (Char → List Bool)
  | y, _, [] => y
  | y, idx, l :: rest =>
    markPositions (if l = '?' then y else setYellow y l idx true) (idx + 1) rest

/-- Green-prototype merge loop of `Wordle._update_word_information`
(wordle.py:437): every non-`?` entry overwrites that slot. -/
def mergeGreen : List Char → Nat → List Char → List Char
  | g, _, [] => g
  | g, idx, l :: rest => mergeGreen (if l = '?' then g else g.set idx l) (idx + 1) rest

/-- `Wordle._update_word_information` (wordle.py:414): union the grey
letters, flag the yellow prototype's letters, merge the green prototype,
and then — the closing loop at wordle.py:442 — flag every confirmed
(letter, index) pair in the yellow dictionary as well. -/
def update_word_information (s : Wordle) (nots yel grn : List Char) : Wordle :=
  let letters := s.lettersNotInWord ++ nots.filter (fun c => !s.lettersNotInWord.contains c)
  let y1 := markPositions s.yellowLetterPositions 0 yel
  let g1 := mergeGreen s.greenLetterPositions 0 grn
  let y2 := markPositions y1 0 g1
  ⟨letters, y2, g1⟩

/-- One round of `Wordle.play` (wordle.py:487): parse the feedback and fold
it into the state. -/
def processRound (s : Wordle) (word_played information : List Char) : Option Wordle :=
  (process_input word_played information).map
    (fun t => update_word_information s t.1 t.2.1 t.2.2)

/-- The per-word predicate of the candidate filter in `Wordle.play`
(wordle.py:492), in evaluation order of the lazily nested `filter`s: yellow
letters present, then the positional prototype (which can raise, `none`),
then grey letters at the still-unknown positions. -/
def survives (s : Wordle) (w : Word) : Option Bool :=
  if !(all_letters_in_word w (yellow_letter_positions_to_set s.yellowLetterPositions)) then
    some false
  else
    match all_letters_in_word_positional w s.greenLetterPositions with
    | none => none
    | some false => some false
    | some true =>
      some (does_not_contain w s.lettersNotInWord (some s.greenLetterPositions))

/-- The Constraint Filter of `Wordle.play` (wordle.py:492): keep the words
for which `survives` is `true`; a raised exception aborts the whole
filtering (`none`). -/
def filterWords (s : Wordle) : List Word → Option (List Word)
  | [] => some []
  | w :: ws =>
    match survives s w with
    | none => none
    | some true => (filterWords s ws).map (fun r => w :: r)
    | some false => filterWords s ws

/-! ## The Suggestion Engine (`suggest_words_with_max_information`, wordle.py:173) -/

/-- The letters of the candidate words at the still-unknown indices
(wordle.py:217): `idx` is an unknown index iff `green.get? idx = some '?'`.
Duplicates are kept deliberately. -/
def unknownLetters (word_list : List Word) (green : List Char) : List Char :=
  word_list.flatMap (fun w =>
    w.enum.filterMap (fun ic => if green.get? ic.1 = some '?' then some ic.2 else none))

/-- The distinct elements of a list, first occurrences first — the key order
of a Python `Counter` built from the list. -/
def dedupFirst : List Char → List Char
  | [] => []
  | c :: rest => c :: (dedupFirst rest).filter (fun d => d ≠ c)

/-- Stable descending insertion (by count): the new pair goes after every
pair of greater or equal count, matching the stability of Python's
`sorted(..., reverse=True)` used by `Counter.most_common`. -/
def insertByCount (p : Char × Nat) : List (Char × Nat) → List (Char × Nat)
  | [] => [p]
  | q :: qs => if q.2 < p.2 then p :: q :: qs else q :: insertByCount p qs

/-- `Counter(l).most_common()` (with no argument): the distinct letters with
their multiplicities, sorted by count descending, ties in first-occurrence
order. -/
def most_common (l : List Char) : List (Char × Nat) :=
  (dedupFirst l).foldl (fun acc c => insertByCount (c, l.count c) acc) []

/-- The `top_n_letters` selected at wordle.py:234: the first
`num_search_letters` letters of `most_common`. -/
def topNLetters (word_list : List Word) (green : List Char) (num : Nat) : List Char :=
  ((most_common (unknownLetters word_list green)).take num).map Prod.fst

/-- The dictionary filter used by the Suggestion Engine (wordle.py:241 and
wordle.py:276): when `positions_of_yellow_letters` is truthy the yellow
predicate is used — and the selected top letters are ignored — otherwise
words must contain all of `top`. -/
def runSuggestFilter (univ : List Word) (yopt : Option (List (Char × List Bool)))
    (top : List Char) : List Word :=
  match yopt with
  | some d =>
    if d.isEmpty then univ.filter (fun w => all_letters_in_word w top)
    else univ.filter (fun w => filter_with_yellow_letters w d)
  | none => univ.filter (fun w => all_letters_in_word w top)

/-- The backoff `while` loop at wordle.py:268, iterated over the offsets it
visits (`1, 2, …` while `num + offset ≤ |most_common|`).  At offset `o` the
mutated `top_n_letters` equals the first `num - 1` most common letters plus
the `(num + o)`-th. -/
def backoffOffsets (univ : List Word) (yopt : Option (List (Char × List Bool)))
    (mc : List (Char × Nat)) (num : Nat) : List Nat → Option (List Word)
  | [] => none
  | o :: os =>
    let top := (mc.take (num - 1)).map Prod.fst
      ++ ((mc.drop (num + o - 1)).take 1).map Prod.fst
    let results := runSuggestFilter univ yopt top
    if results.isEmpty then backoffOffsets univ yopt mc num os else some results

/-- `suggest_words_with_max_information` (wordle.py:173), with the dictionary
passed in as `univ` (the Word Source capability) and a fuel parameter
bounding the recursion depth: `none` means the fuel ran out, i.e. the Python
recursion reached at least that depth.  The recursive structure mirrors
wordle.py:305 (relax `num_search_letters`) and wordle.py:317 (retry with
`positions_of_yellow_letters=None` — unconditionally, even when it already
is `None`). -/
def suggest_words_with_max_information (univ : List Word) :
    Nat → List Word → List Char → Nat → Option (List (Char × List Bool)) →
    Option (List Word)
  | 0, _, _, _, _ => none
  | fuel + 1, word_list, green, num, yopt =>
    let mc := most_common (unknownLetters word_list green)
    let top := (mc.take num).map Prod.fst
    let found0 := runSuggestFilter univ yopt top
    if found0.isEmpty then
      match backoffOffsets univ yopt mc num (List.range' 1 (mc.length - num)) with
      | some r => some r
      | none =>
        match (if 1 < num then
            suggest_words_with_max_information univ fuel word_list green (num - 1) yopt
          else some []) with
        | none => none
        | some f1 =>
          if f1.isEmpty then
            suggest_words_with_max_information univ fuel word_list green num none
          else some f1
    else some found0

end WordleHelper

namespace WordleHelper

/-! ## General lemmas about the embedded functions -/

theorem positionalMatch_refl : ∀ l : List Char, positionalMatch l l = some true := by
  intro l
  induction l with
  | nil => rfl
  | cons x xs ih => simp [positionalMatch, ih]

theorem markPositions_apply_of_not_mem (proto : List Char) :
    ∀ (y : Char → List Bool) (i : Nat) (c : Char), c ∉ proto →
      markPositions y i proto c = y c := by
  induction proto with
  | nil => intro y i c _; rfl
  | cons l rest ih =>
    intro y i c hc
    simp only [List.mem_cons, not_or] at hc
    rw [markPositions, ih _ _ _ hc.2]
    split
    · rfl
    · simp [setYellow, hc.1]

theorem filterWords_mem (s : Wordle) :
    ∀ (W r : List Word), filterWords s W = some r →
      ∀ w : Word, (w ∈ r ↔ w ∈ W ∧ survives s w = some true) := by
  intro W
  induction W with
  | nil => intro r h w; simp [filterWords] at h; subst h; simp
  | cons v vs ih =>
    intro r h w
    rw [filterWords] at h
    cases hv : survives s v with
    | none => rw [hv] at h; exact absurd h (by simp)
    | some b =>
      cases b with
      | true =>
        rw [hv] at h
        cases hrec : filterWords s vs with
        | none => rw [hrec] at h; exact absurd h (by simp)
        | some r' =>
          rw [hrec] at h
          simp only [Option.map_some'] at h
          injection h with h
          subst h
          simp only [List.mem_cons, ih r' hrec w]
          constructor
          · rintro (rfl | ⟨hw, hs⟩)
            · exact ⟨Or.inl rfl, hv⟩
            · exact ⟨Or.inr hw, hs⟩
          · rintro ⟨rfl | hw, hs⟩
            · exact Or.inl rfl
            · exact Or.inr ⟨hw, hs⟩
      | false =>
        rw [hv] at h
        rw [ih r h w]
        simp only [List.mem_cons]
        constructor
        · rintro ⟨hw, hs⟩; exact ⟨Or.inr hw, hs⟩
        · rintro ⟨rfl | hw, hs⟩
          · rw [hv] at hs; exact absurd hs (by simp)
          · exact ⟨hw, hs⟩

theorem filterWords_of_forall (s : Wordle) :
    ∀ W : List Word, (∀ w ∈ W, survives s w = some true) →
      filterWords s W = some W := by
  intro W
  induction W with
  | nil => intro _; rfl
  | cons v vs ih =>
    intro h
    rw [filterWords, h v (List.mem_cons_self v vs),
      ih (fun w hw => h w (List.mem_cons_of_mem v hw))]
    rfl

theorem survives_eq_true_iff (s : Wordle) (w : Word) :
    survives s w = some true ↔
      all_letters_in_word w (yellow_letter_positions_to_set s.yellowLetterPositions) = true ∧
      all_letters_in_word_positional w s.greenLetterPositions = some true ∧
      does_not_contain w s.lettersNotInWord (some s.greenLetterPositions) = true := by
  rw [survives]
  cases hA : all_letters_in_word w (yellow_letter_positions_to_set s.yellowLetterPositions) with
  | false => simp
  | true =>
    simp only [Bool.not_true, Bool.false_eq_true, if_false]
    cases hP : all_letters_in_word_positional w s.greenLetterPositions with
    | none => simp
    | some b => cases b <;> simp

theorem dnc_mono (w : Word) (L1 L2 g : List Char)
    (hsub : ∀ c ∈ L1, c ∈ L2)
    (h : does_not_contain w L2 (some g) = true) :
    does_not_contain w L1 (some g) = true := by
  simp only [does_not_contain, Bool.not_eq_true'] at h ⊢
  rw [List.any_eq_false] at h ⊢
  intro l hl
  exact h l (hsub l hl)

theorem zip_take_lengths (w : List Char) :
    ∀ m : List Char, w.zip m = (w.take m.length).zip (m.take w.length) := by
  induction w with
  | nil => intro m; simp
  | cons a as ih =>
    intro m
    cases m with
    | nil => simp
    | cons b bs => simp [List.zip_cons_cons, List.take_succ_cons, ih bs]

end WordleHelper

namespace WordleHelper

/-! ## Claim C1 — soundness of filtering -/

/-- Claim C1: for every 5-letter word `w` (lowercase letters, the spec's
`Word` type), absorbing the round obtained by scoring `w` against itself
(all-green marks) into a fresh knowledge state and then applying the
Constraint Filter of `Wordle.play` to the singleton set `{w}` returns `{w}`:
the true answer is never removed. -/
theorem C1_filter_soundness (w : Word) (h5 : w.length = 5)
    (hlc : ∀ c ∈ w, c ∈ asciiLowercase) :
    (processRound Wordle.init w (List.replicate 5 'G')).bind
      (fun s => filterWords s [w]) = some [w] := by
  rcases w with _ | ⟨a, _ | ⟨b, _ | ⟨c, _ | ⟨d, _ | ⟨e, rest⟩⟩⟩⟩⟩ <;> simp at h5
  subst h5
  have hq : ('?' : Char) ∉ asciiLowercase := by decide
  have ha : a ≠ '?' := fun h => hq (h ▸ hlc a (by simp))
  have hb : b ≠ '?' := fun h => hq (h ▸ hlc b (by simp))
  have hc : c ≠ '?' := fun h => hq (h ▸ hlc c (by simp))
  have hd : d ≠ '?' := fun h => hq (h ▸ hlc d (by simp))
  have he : e ≠ '?' := fun h => hq (h ▸ hlc e (by simp))
  have hg : mergeGreen (List.replicate 5 '?') 0 [a, b, c, d, e] = [a, b, c, d, e] := by
    show mergeGreen ['?', '?', '?', '?', '?'] 0 [a, b, c, d, e] = [a, b, c, d, e]
    simp [mergeGreen, ha, hb, hc, hd, he, List.set]
  show filterWords (update_word_information Wordle.init [] (List.replicate 5 '?')
      [a, b, c, d, e]) [[a, b, c, d, e]] = some [[a, b, c, d, e]]
  have hgreen : (update_word_information Wordle.init [] (List.replicate 5 '?')
      [a, b, c, d, e]).greenLetterPositions = [a, b, c, d, e] := hg
  have hyellow : (update_word_information Wordle.init [] (List.replicate 5 '?')
      [a, b, c, d, e]).yellowLetterPositions
      = markPositions (fun _ => List.replicate 5 false) 0
          (mergeGreen (List.replicate 5 '?') 0 [a, b, c, d, e]) := rfl
  rw [hg] at hyellow
  have hA : all_letters_in_word [a, b, c, d, e]
      (yellow_letter_positions_to_set (update_word_information Wordle.init []
        (List.replicate 5 '?') [a, b, c, d, e]).yellowLetterPositions) = true := by
    rw [all_letters_in_word, List.all_eq_true]
    intro l hl
    rw [yellow_letter_positions_to_set, List.mem_filter] at hl
    by_cases hmem : l ∈ [a, b, c, d, e]
    · simpa [List.contains] using hmem
    · rw [hyellow, markPositions_apply_of_not_mem _ _ _ _ hmem] at hl
      simp at hl
  have hP : all_letters_in_word_positional [a, b, c, d, e]
      (update_word_information Wordle.init [] (List.replicate 5 '?')
        [a, b, c, d, e]).greenLetterPositions = some true := by
    rw [all_letters_in_word_positional, hgreen]
    exact positionalMatch_refl _
  have hD : does_not_contain [a, b, c, d, e]
      (update_word_information Wordle.init [] (List.replicate 5 '?')
        [a, b, c, d, e]).lettersNotInWord
      (some (update_word_information Wordle.init [] (List.replicate 5 '?')
        [a, b, c, d, e]).greenLetterPositions) = true := rfl
  have hsurv : survives (update_word_information Wordle.init [] (List.replicate 5 '?')
      [a, b, c, d, e]) [a, b, c, d, e] = some true := by
    rw [survives, hA]
    simp only [Bool.not_true, Bool.false_eq_true, if_false]
    rw [hP, hD]
  have hsurv2 : survives (update_word_information Wordle.init [] ['?', '?', '?', '?', '?']
      [a, b, c, d, e]) [a, b, c, d, e] = some true := hsurv
  simp [filterWords, hsurv2]

/-- Claim C1, witness: the theorem instantiated at the concrete word
`crane`. -/
theorem C1_filter_soundness_witness :
    (processRound Wordle.init "crane".toList (List.replicate 5 'G')).bind
      (fun s => filterWords s ["crane".toList]) = some ["crane".toList] :=
  C1_filter_soundness "crane".toList (by decide) (by decide)

/-! ## Claim C2 — green-resolves-yellow invariant -/

/-- Claim C2 (code evaluated at the failing input): processing the round
`("abcde", "GXXXX")` from a fresh state records `'a'` confirmed at
position 0, yet afterwards position 0 is flagged `True` in `'a'`'s
excluded-position list — the closing loop of `_update_word_information`
(wordle.py:442-447) writes `True` where its own comment says it should take
the position out, so a confirmed green *adds* the exclusion instead of
clearing it. -/
theorem C2_green_mark_adds_exclusion :
    (processRound Wordle.init "abcde".toList "GXXXX".toList).map
      (fun s => (s.greenLetterPositions, s.yellowLetterPositions 'a'))
      = some ("a????".toList, [true, false, false, false, false]) := by
  decide

/-! ## Claim C3 — suggestion termination -/

/-- Claim C3 (code evaluated at the failing input): with the non-empty
universe `{"aaaaa"}`, candidate list `["bbbbb"]`, no confirmed positions,
`num_search_letters = 1` and no yellow-position mapping, the Suggestion
Engine never returns: the initial filter and the backoff both find nothing,
the relaxation guard `num_search_letters - 1 > 0` fails, and the last-resort
call at wordle.py:317-323 re-invokes the function with *identical*
arguments (`positions_of_yellow_letters` is already `None`), so no recursion
depth (fuel) suffices. -/
theorem C3_suggest_diverges :
    ∀ fuel : Nat, suggest_words_with_max_information ["aaaaa".toList] fuel
      ["bbbbb".toList] "?????".toList 1 none = none := by
  intro fuel
  induction fuel with
  | zero => rfl
  | succ n ih => exact ih

end WordleHelper

namespace WordleHelper

/-! ## Claim C4 — Constraint Filter rule 3 -/

/-- Claim C4, counterexample: after the round `("bcdea", "YXXXX")` from a
fresh state, position 0 is recorded excluded for `'b'`
(`yellowLetterPositions 'b' = [true, …]`), yet the word `bzzzz` — which
places `'b'` exactly at index 0 — still survives the Constraint Filter of
`Wordle.play`.  The filter therefore does not enforce the claim's second
conjunct (no letter at one of its excluded positions). -/
theorem C4_excluded_positions_not_enforced :
    (processRound Wordle.init "bcdea".toList "YXXXX".toList).map
      (fun s => (filterWords s ["bzzzz".toList], s.yellowLetterPositions 'b',
        "bzzzz".toList.get? 0))
      = some (some ["bzzzz".toList], [true, false, false, false, false], some 'b') := by
  decide

/-- Claim C4 as amended: a word survives the Constraint Filter of
`Wordle.play` only if, restricting attention to the positions not yet
confirmed, no such position of `w` holds a letter from the absent-letter
set.  (The filter does not consult the excluded-position sets at all, so the
claim's second conjunct is dropped.) -/
theorem C4_no_absent_letter_at_unconfirmed (s : Wordle) (w : Word)
    (hs : survives s w = some true) :
    ∀ i c, s.greenLetterPositions.get? i = some '?' → w.get? i = some c →
      c ∉ s.lettersNotInWord := by
  intro i c hgi hwi hmem
  have hD := ((survives_eq_true_iff s w).mp hs).2.2
  have hE : s.greenLetterPositions.isEmpty = false := by
    cases hGL : s.greenLetterPositions with
    | nil => rw [hGL] at hgi; simp at hgi
    | cons x xs => rfl
  simp only [does_not_contain, hE, Bool.false_eq_true, if_false, Bool.not_eq_true'] at hD
  rw [List.any_eq_false] at hD
  apply hD c hmem
  have hpair : (w.zip s.greenLetterPositions).get? i = some (c, '?') :=
    (List.get?_zip_eq_some _ _ _ _).mpr ⟨hwi, hgi⟩
  have hcmem : c ∈ (w.zip s.greenLetterPositions).filterMap
      (fun p => if p.2 = '?' then some p.1 else none) :=
    List.mem_filterMap.mpr ⟨(c, '?'), List.get?_mem hpair, by simp⟩
  simp [List.contains, List.elem_iff, hcmem]

/-- Claim C4, witness: the amended theorem instantiated on the fresh state
and the word `abcde` at position 0. -/
theorem C4_no_absent_letter_at_unconfirmed_witness :
    'a' ∉ Wordle.init.lettersNotInWord :=
  C4_no_absent_letter_at_unconfirmed Wordle.init "abcde".toList (by decide)
    0 'a' (by decide) (by decide)

/-! ## Claim C5 — suggestion step 4 filtering -/

/-- Claim C5, counterexample: a call with a non-empty excluded-positions
mapping returns the word `abcde` even though the single selected
most-frequent letter is `'f'` and `abcde` does not contain `'f'` — when
`positions_of_yellow_letters` is supplied, `suggest_words_with_max_information`
filters with `_filter_with_yellow_letters` *instead of* (not on top of) the
all-top-letters requirement (wordle.py:241-250). -/
theorem C5_yellow_branch_drops_top_letters :
    suggest_words_with_max_information ["abcde".toList] 1 ["fffff".toList]
        "?????".toList 1 (some [('a', [false, false, false, false, false])])
      = some ["abcde".toList]
    ∧ topNLetters ["fffff".toList] "?????".toList 1 = ['f']
    ∧ ("abcde".toList.contains 'f') = false := by
  refine ⟨by decide, by decide, by decide⟩

/-- Claim C5 as amended: when no excluded-positions mapping is supplied and
the engine's first filtering attempt over the universe is non-empty, every
word in the returned suggestion list contains all of the selected
most-frequent letters (ignoring position).  When a non-empty mapping is
supplied the engine instead filters solely with the yellow-positions
predicate, dropping the top-letters requirement. -/
theorem C5_top_letters_without_yellow (univ word_list : List Word)
    (green : List Char) (num fuel : Nat) (r : List Word)
    (hne : (univ.filter (fun w =>
        all_letters_in_word w (topNLetters word_list green num))).isEmpty = false)
    (h : suggest_words_with_max_information univ (fuel + 1) word_list green num none
        = some r) :
    ∀ w ∈ r, all_letters_in_word w (topNLetters word_list green num) = true := by
  intro w hw
  have hne' : (runSuggestFilter univ none
      (((most_common (unknownLetters word_list green)).take num).map Prod.fst)).isEmpty
      = false := hne
  rw [suggest_words_with_max_information] at h
  simp only [hne', Bool.false_eq_true, if_false] at h
  injection h with h
  subst h
  have hw' : w ∈ univ.filter (fun w =>
      all_letters_in_word w (topNLetters word_list green num)) := hw
  exact (List.mem_filter.mp hw').2

/-- Claim C5, witness: the amended theorem instantiated on the universe
`{"fzzzz"}` and candidate list `["fffff"]`. -/
theorem C5_top_letters_without_yellow_witness :
    all_letters_in_word "fzzzz".toList
      (topNLetters ["fffff".toList] "?????".toList 1) = true :=
  C5_top_letters_without_yellow ["fzzzz".toList] ["fffff".toList] "?????".toList
    1 0 ["fzzzz".toList] (by decide) (by decide) "fzzzz".toList (by decide)

end WordleHelper

namespace WordleHelper

/-! ## Claim C6 — monotonic narrowing -/

/-- A state with no recorded facts except that `'c'` is absent. -/
def s1Narrow : Wordle := ⟨['c'], fun _ => List.replicate 5 false, "?????".toList⟩

/-- The same state with, in addition, `'c'` confirmed at position 0. -/
def s2Narrow : Wordle := ⟨['c'], fun _ => List.replicate 5 false, "c????".toList⟩

/-- Claim C6, counterexample: `s2Narrow` records a superset of `s1Narrow`'s
absent letters, excluded positions and confirmed positions, yet the word
`czzzz` survives the Constraint Filter under `s2Narrow` while being rejected
under `s1Narrow` — confirming a position weakens the absent-letter check
(it is only applied at unconfirmed positions), so `filter(W, S2) ⊆
filter(W, S1)` fails. -/
theorem C6_narrowing_fails_when_confirming :
    ((∀ c, c ∈ s1Narrow.lettersNotInWord → c ∈ s2Narrow.lettersNotInWord) ∧
      (∀ c i, (s1Narrow.yellowLetterPositions c).get? i = some true →
        (s2Narrow.yellowLetterPositions c).get? i = some true) ∧
      (∀ i c, s1Narrow.greenLetterPositions.get? i = some c → c ≠ '?' →
        s2Narrow.greenLetterPositions.get? i = some c)) ∧
    survives s2Narrow "czzzz".toList = some true ∧
    survives s1Narrow "czzzz".toList = some false := by
  refine ⟨⟨fun c h => h, fun c i h => h, ?_⟩, by decide, by decide⟩
  intro i c h hne
  exfalso
  apply hne
  have hmem : c ∈ s1Narrow.greenLetterPositions := List.get?_mem h
  simpa [s1Narrow] using hmem

/-- Claim C6 as amended: monotonic narrowing holds when the two states share
the same confirmed positions: if `s2` records a superset of `s1`'s absent
letters and excluded positions while `s1.greenLetterPositions =
s2.greenLetterPositions`, every word surviving the Constraint Filter under
`s2` also survives under `s1`. -/
theorem C6_monotone_same_green (s1 s2 : Wordle) (W r1 r2 : List Word)
    (hg : s1.greenLetterPositions = s2.greenLetterPositions)
    (hl : ∀ c, c ∈ s1.lettersNotInWord → c ∈ s2.lettersNotInWord)
    (hy : ∀ c i, (s1.yellowLetterPositions c).get? i = some true →
        (s2.yellowLetterPositions c).get? i = some true)
    (h1 : filterWords s1 W = some r1) (h2 : filterWords s2 W = some r2) :
    ∀ w ∈ r2, w ∈ r1 := by
  intro w hw
  have hmem := (filterWords_mem s2 W r2 h2 w).mp hw
  obtain ⟨hA2, hP2, hD2⟩ := (survives_eq_true_iff s2 w).mp hmem.2
  have hin : ∀ l, (s1.yellowLetterPositions l).any id = true →
      (s2.yellowLetterPositions l).any id = true := by
    intro l h
    rw [List.any_eq_true] at h ⊢
    obtain ⟨x, hxmem, hx⟩ := h
    simp only [id] at hx
    subst hx
    obtain ⟨n, hn⟩ := List.mem_iff_get?.mp hxmem
    exact ⟨true, List.get?_mem (hy l n hn), rfl⟩
  have hs1 : survives s1 w = some true := by
    refine (survives_eq_true_iff s1 w).mpr ⟨?_, ?_, ?_⟩
    · rw [all_letters_in_word, List.all_eq_true] at hA2 ⊢
      intro l hl'
      rw [yellow_letter_positions_to_set, List.mem_filter] at hl'
      exact hA2 l (by
        rw [yellow_letter_positions_to_set, List.mem_filter]
        exact ⟨hl'.1, hin l hl'.2⟩)
    · simpa [all_letters_in_word_positional, hg] using hP2
    · rw [hg]
      exact dnc_mono w s1.lettersNotInWord s2.lettersNotInWord
        s2.greenLetterPositions hl hD2
  exact (filterWords_mem s1 W r1 h1 w).mpr ⟨hmem.1, hs1⟩

/-- Claim C6, witness: the amended theorem instantiated with the fresh state
on both sides and the singleton word set `{"abcde"}`. -/
theorem C6_monotone_same_green_witness : "abcde".toList ∈ ["abcde".toList] :=
  C6_monotone_same_green Wordle.init Wordle.init ["abcde".toList]
    ["abcde".toList] ["abcde".toList] rfl (fun _ h => h) (fun _ _ h => h)
    (by decide) (by decide) "abcde".toList (by decide)

/-! ## Claim C7 — idempotence of filtering -/

/-- Claim C7: the Constraint Filter is idempotent — whenever filtering a
word set `W` under state `s` yields `r` (does not raise), filtering `r`
again under the same state yields `r` unchanged. -/
theorem C7_filter_idempotent (s : Wordle) (W r : List Word)
    (h : filterWords s W = some r) :
    filterWords s r = some r := by
  apply filterWords_of_forall
  intro w hw
  exact ((filterWords_mem s W r h w).mp hw).2

/-- Claim C7, witness: the theorem instantiated on the fresh state and the
word set `{"abcde"}`. -/
theorem C7_filter_idempotent_witness :
    filterWords Wordle.init ["abcde".toList] = some ["abcde".toList] :=
  C7_filter_idempotent Wordle.init ["abcde".toList] ["abcde".toList] (by decide)

end WordleHelper

namespace WordleHelper

/-! ## Claim C8 — Round Processor validation -/

/-- Claim C8, counterexample: `_process_input` applied to a six-letter word
and five marks does not fail — it silently truncates the word to the zipped
common length and returns the same triple as for the truncated input, so no
`ValidationError` is surfaced for mismatched lengths. -/
theorem C8_mismatched_lengths_truncated :
    process_input "abcdef".toList "XYXXX".toList
      = process_input "abcde".toList "XYXXX".toList
    ∧ (process_input "abcdef".toList "XYXXX".toList).isSome = true := by
  refine ⟨by decide, by decide⟩

/-- Claim C8 as amended: `_process_input` performs no length validation of
its own; mismatched `word_played`/`information` lengths are silently
truncated to the common prefix by `zip` (the length-5 checks live in the
interactive loop of `Wordle.play`, which re-prompts instead of raising). -/
theorem C8_process_input_truncates (w m : List Char) :
    process_input w m = process_input (w.take m.length) (m.take w.length) := by
  rw [process_input, process_input, ← zip_take_lengths]

/-! ## Claim C9 — strict zip in `all_letters_in_word_positional` -/

/-- Claim C9, counterexample: for the unequal-length pair
`word = "aa"`, `letters = "b"` the function returns `False` (the first
compared pair already disagrees, before the lazy strict `zip` reaches the
length mismatch) instead of raising. -/
theorem C9_early_mismatch_returns_false :
    all_letters_in_word_positional ['a', 'a'] ['b'] = some false
    ∧ (['b'] : List Char).length ≠ (['a', 'a'] : List Char).length := by
  refine ⟨by decide, by decide⟩

/-- Claim C9 as amended: for equal-length inputs
`all_letters_in_word_positional` is total and returns a boolean; for
unequal-length inputs it either raises `ValueError` (`none`) or returns
`False` on an early non-wildcard mismatch — it never returns `True`. -/
theorem C9_unequal_lengths_never_true (word letters : List Char) :
    (letters.length = word.length →
      (all_letters_in_word_positional word letters).isSome = true)
    ∧ (letters.length ≠ word.length →
      all_letters_in_word_positional word letters ≠ some true) := by
  rw [all_letters_in_word_positional]
  induction letters generalizing word with
  | nil =>
    cases word with
    | nil => exact ⟨fun _ => rfl, fun h => absurd rfl h⟩
    | cons x xs =>
      constructor
      · intro h; simp at h
      · intro _ hcon; rw [positionalMatch] at hcon; exact Option.noConfusion hcon
  | cons m ms ih =>
    cases word with
    | nil =>
      constructor
      · intro h; simp at h
      · intro _ hcon; rw [positionalMatch] at hcon; exact Option.noConfusion hcon
    | cons x xs =>
      constructor
      · intro hlen
        have h' : ms.length = xs.length := by simpa using hlen
        rw [positionalMatch]
        split
        · exact (ih xs).1 h'
        · split
          · exact (ih xs).1 h'
          · rfl
      · intro hlen
        have h' : ms.length ≠ xs.length := by simpa using hlen
        rw [positionalMatch]
        split
        · exact (ih xs).2 h'
        · split
          · exact (ih xs).2 h'
          · simp

/-- Claim C9, witness: the two halves of the amended theorem instantiated at
the equal-length pair `("maria", "?ar?a")` and at the unequal pair
`("aa", "c")`. -/
theorem C9_unequal_lengths_never_true_witness :
    (all_letters_in_word_positional "maria".toList "?ar?a".toList).isSome = true
    ∧ all_letters_in_word_positional ['a', 'a'] ['c'] ≠ some true :=
  ⟨(C9_unequal_lengths_never_true "maria".toList "?ar?a".toList).1 (by decide),
   (C9_unequal_lengths_never_true ['a', 'a'] ['c']).2 (by decide)⟩

/-! ## Claim C10 — fully confirmed prototype makes the grey check vacuous -/

/-- Claim C10: whenever the `knownCorrectPositions` string passed to
`does_not_contain` is non-empty and contains no `'?'`, the function returns
`True` for every word and every absent-letter set: with every position
confirmed, the filtered letter list is empty and the check is vacuous. -/
theorem C10_all_confirmed_vacuous (word : Word) (nots kcp : List Char)
    (hne : kcp ≠ []) (hq : '?' ∉ kcp) :
    does_not_contain word nots (some kcp) = true := by
  have hE : kcp.isEmpty = false := by
    cases kcp with
    | nil => exact absurd rfl hne
    | cons x xs => rfl
  have hnil : (word.zip kcp).filterMap
      (fun p => if p.2 = '?' then some p.1 else none) = [] := by
    rw [List.filterMap_eq_nil_iff]
    intro p hp
    have h2 : p.2 ∈ kcp := (List.of_mem_zip hp).2
    have hne2 : p.2 ≠ '?' := fun h => hq (h ▸ h2)
    simp [hne2]
  simp [does_not_contain, hE, hnil]

/-- Claim C10, witness: the theorem instantiated on the word `abcde`, absent
letters `{a, b}` and the fully confirmed prototype `vwxyz`. -/
theorem C10_all_confirmed_vacuous_witness :
    does_not_contain "abcde".toList ['a', 'b'] (some "vwxyz".toList) = true :=
  C10_all_confirmed_vacuous "abcde".toList ['a', 'b'] "vwxyz".toList
    (by decide) (by decide)

end WordleHelper
